import Mathlib

/-!
Verification of the client-side cache / retry / prefetch / reactive-stream
layer of the bytebank application (`useSmartCache`, `useSmartPrefetch`,
`ReactiveStreamService`).

The TypeScript sources are shallowly embedded as pure Lean functions:

* `Date.now()` values are natural numbers (milliseconds);
* the `Map`/mutable-ref state of `useSmartCache` is a record of functions
  `String → Option _`, updated by pointwise `if`-rewriting;
* a single `await action()` result is an `Except E T` value;
* one invocation of `executeWithRetry` is the pure step
  `executeWithRetryStep`, which reports how the caller's promise settles
  and whether a retry timer was scheduled;
* the prefetch queue is a `List` of items sorted with a stable insertion
  sort, matching the (stable) `Array.prototype.sort` of the source;
* JavaScript quirks that the claims depend on are modelled explicitly:
  `x > undefined` is `false` (`jsGtUndef`) and `setTimeout(f, undefined)`
  uses delay `0` (`setTimeoutDelay`).
-/

namespace ByteBank

/-! ## `useSmartCache` (src/shared/hooks/useSmartCache.ts) -/

/-- `CacheConfig` with the destructuring defaults of `useSmartCache`:
`ttl = 5 * 60 * 1000`, `maxRetries = 3`, `retryDelay = 1000`. -/
structure CacheConfig where
  ttl : Nat := 5 * 60 * 1000
  maxRetries : Nat := 3
  retryDelay : Nat := 1000
deriving DecidableEq

/-- `CacheEntry<T>`: `data`, `timestamp`, `expiresAt`. -/
structure CacheEntry (T : Type) where
  data : T
  timestamp : Nat
  expiresAt : Nat
deriving DecidableEq

/-- The mutable refs of one `useSmartCache` instance: `cache`,
`retryCount` and `retryTimeouts` (presence of a pending retry timer). -/
structure SmartCacheState (T : Type) where
  cache : String → Option (CacheEntry T)
  retryCount : String → Option Nat
  retryTimeouts : String → Bool

/-- Pointwise update of a function-represented map. -/
def updFn {A : Type} (m : String → A) (key : String) (v : A) : String → A :=
  fun k => if k = key then v else m k

/-- The state of a freshly constructed `useSmartCache` (all maps empty). -/
def emptyCacheState (T : Type) : SmartCacheState T :=
  ⟨fun _ => none, fun _ => none, fun _ => false⟩

/-- `isExpired(entry)`: `Date.now() > entry.expiresAt`. -/
def isExpired (now : Nat) {T : Type} (entry : CacheEntry T) : Bool :=
  entry.expiresAt < now

/-- `getCached(key)`: returns the data if the entry exists and is not
expired; deletes an existing expired entry and returns `null`.  The
returned pair is (result, state after the eviction side effect). -/
def getCached (now : Nat) {T : Type} (key : String) (st : SmartCacheState T) :
    Option T × SmartCacheState T :=
  match st.cache key with
  | some entry =>
      if isExpired now entry then
        (none, { st with cache := updFn st.cache key none })
      else
        (some entry.data, st)
  | none => (none, st)

/-- `setCached(key, data)`: stores `{data, timestamp := now,
expiresAt := now + ttl}` and deletes `retryCount[key]`. -/
def setCached (cfg : CacheConfig) (now : Nat) {T : Type} (key : String)
    (data : T) (st : SmartCacheState T) : SmartCacheState T :=
  { st with
    cache := updFn st.cache key (some ⟨data, now, now + cfg.ttl⟩)
    retryCount := updFn st.retryCount key none }

/-- How the promise returned by one `executeWithRetry` invocation settles. -/
inductive PromiseOutcome (T E : Type)
  | resolve (v : T)
  | reject (e : E)
deriving DecidableEq

/-- Result of one `executeWithRetry` invocation: how the caller's promise
settles, the state after the invocation, and the delay of the scheduled
retry timer, if one was scheduled. -/
structure RetryStepResult (T E : Type) where
  outcome : PromiseOutcome T E
  state : SmartCacheState T
  scheduledRetry : Option Nat

/-- One invocation of `executeWithRetry(key, action)`, given the result of
the single `await action()` it performs.  On success it caches the value
and resolves.  On failure with `currentRetries < maxRetries` it increments
`retryCount[key]`, schedules a retry after
`retryDelay * (currentRetries + 1)` and stores the timer handle; on
failure with `currentRetries >= maxRetries` it deletes `retryCount[key]`.
In both failure branches the `throw err` at the end of the `catch` block
rejects the caller's promise with the error. -/
def executeWithRetryStep (cfg : CacheConfig) (now : Nat) {T E : Type}
    (key : String) (actionResult : Except E T) (st : SmartCacheState T) :
    RetryStepResult T E :=
  let currentRetries := (st.retryCount key).getD 0
  match actionResult with
  | .ok result => ⟨.resolve result, setCached cfg now key result st, none⟩
  | .error err =>
      if currentRetries < cfg.maxRetries then
        let nextRetryCount := currentRetries + 1
        ⟨.reject err,
         { st with
           retryCount := updFn st.retryCount key (some nextRetryCount)
           retryTimeouts := updFn st.retryTimeouts key true },
         some (cfg.retryDelay * nextRetryCount)⟩
      else
        ⟨.reject err,
         { st with retryCount := updFn st.retryCount key none },
         none⟩

/-- The chain of `executeWithRetry` invocations produced for an action
that fails on every attempt (`errs i` is the error of attempt `i`).  Each
scheduled retry timer fires, deletes its `retryTimeouts` entry and
re-invokes `executeWithRetry` with the same key and action.  Returns the
number of times the action was invoked and the final state.  `fuel`
bounds the recursion; it is irrelevant once it exceeds the chain length. -/
def runFailingChain (cfg : CacheConfig) (now : Nat) {T E : Type}
    (key : String) (errs : Nat → E) :
    Nat → Nat → SmartCacheState T → Nat × SmartCacheState T
  | 0, _, st => (0, st)
  | fuel + 1, i, st =>
      let step := executeWithRetryStep cfg now (T := T) key (.error (errs i)) st
      match step.scheduledRetry with
      | some _ =>
          let next :=
            runFailingChain cfg now key errs fuel (i + 1)
              { step.state with retryTimeouts := updFn step.state.retryTimeouts key false }
          (next.1 + 1, next.2)
      | none => (1, step.state)

/-! ## `useSmartPrefetch` (src/shared/hooks/useSmartPrefetch.ts) -/

/-- `PrefetchConfig`: all four fields are optional in the TypeScript
interface; `none` models an absent (`undefined`) field. -/
structure PrefetchConfig where
  priority : Option Int := none
  background : Option Bool := none
  timeout : Option Nat := none
  autoRefetch : Option Bool := none
deriving DecidableEq

/-- The behaviour of one `fetchFn`: its promise settles `settleAfter`
milliseconds after being invoked, resolving or rejecting per `result`. -/
structure FetchBehavior (T : Type) where
  settleAfter : Nat
  result : Except Unit T

/-- `PrefetchQueueItem<T>`.  Field order follows the source: `key`,
`fetchFn`, `priority`, `config`, `addedAt`.  Note that `config` is the
caller's raw config object, not the destructured defaults. -/
structure PrefetchQueueItem (T : Type) where
  key : String
  fetchFn : FetchBehavior T
  priority : Int
  config : PrefetchConfig
  addedAt : Nat

/-- The mutable refs of one `useSmartPrefetch` instance: the priority
queue, the inner `useSmartCache` state, and `prefetchedKeys`. -/
structure PrefetchState (T : Type) where
  queue : List (PrefetchQueueItem T)
  cache : SmartCacheState T
  prefetchedKeys : List String

/-- The cache configuration `useSmartPrefetch` passes to `useSmartCache`:
`ttl = 10 * 60 * 1000`, `maxRetries = 2`, `retryDelay = 2000`. -/
def prefetchCacheCfg : CacheConfig := ⟨10 * 60 * 1000, 2, 2000⟩

/-- A freshly constructed `useSmartPrefetch` instance. -/
def emptyPrefetchState (T : Type) : PrefetchState T :=
  ⟨[], emptyCacheState T, []⟩

/-- The comparator `(a, b) => b.priority - a.priority` of the source as an
ordering relation: `a` sorts no later than `b` when
`b.priority ≤ a.priority` (descending by priority). -/
def queueRel {T : Type} (a b : PrefetchQueueItem T) : Prop :=
  b.priority ≤ a.priority

instance {T : Type} : DecidableRel (queueRel (T := T)) :=
  fun a b => inferInstanceAs (Decidable (b.priority ≤ a.priority))

instance {T : Type} : IsTotal (PrefetchQueueItem T) queueRel :=
  ⟨fun a b => (le_total b.priority a.priority).imp id id⟩

instance {T : Type} : IsTrans (PrefetchQueueItem T) queueRel :=
  ⟨fun _ _ _ hab hbc => le_trans hbc hab⟩

/-- `prefetchQueue.current.sort((a, b) => b.priority - a.priority)`:
JavaScript's `Array.prototype.sort` is a stable sort, and a stable sort
for a total preorder has a unique result, so the stable insertion sort
models it exactly. -/
def sortQueue {T : Type} (q : List (PrefetchQueueItem T)) : List (PrefetchQueueItem T) :=
  List.insertionSort queueRel q

/-- `prefetchQueue.current[existingIndex].priority = priority`: sets the
priority of the first item with the given key (the one `findIndex`
found). -/
def setPriorityAtFirst {T : Type} (key : String) (p : Int) :
    List (PrefetchQueueItem T) → List (PrefetchQueueItem T)
  | [] => []
  | it :: rest =>
      if it.key = key then { it with priority := p } :: rest
      else it :: setPriorityAtFirst key p rest

/-- `schedulePrefetch(key, fetchFn, config)`.  Destructures `priority`
(default 0) and `autoRefetch` (default false); checks the cache (with its
eviction side effect); returns untouched if validly cached and not
`autoRefetch`; if the key is already queued, raises its priority in place
and re-sorts only when the new priority is strictly greater; otherwise
pushes a new item carrying the caller's RAW `config` and re-sorts.  (The
destructured `timeout = 5000` and `background = true` defaults are never
written into the stored item; `background` only decides whether
`processPrefetchQueue` is kicked off immediately, which is modelled as a
separate `processPrefetchQueue` application.) -/
def schedulePrefetch (now : Nat) {T : Type} (key : String)
    (fetch : FetchBehavior T) (config : PrefetchConfig) (st : PrefetchState T) :
    PrefetchState T :=
  let priority := config.priority.getD 0
  let autoRefetch := config.autoRefetch.getD false
  let c := getCached now key st.cache
  let st1 : PrefetchState T := { st with cache := c.2 }
  if c.1.isSome && !autoRefetch then st1
  else
    match st1.queue.find? (fun it => it.key == key) with
    | some existing =>
        if existing.priority < priority then
          { st1 with queue := sortQueue (setPriorityAtFirst key priority st1.queue) }
        else st1
    | none =>
        { st1 with queue := sortQueue (st1.queue ++ [⟨key, fetch, priority, config, now⟩]) }

/-- `timeInQueue > item.config.timeout!` with JavaScript semantics: when
`timeout` is `undefined` the comparison is against `NaN` and is `false`. -/
def jsGtUndef (a : Nat) (b : Option Nat) : Bool :=
  match b with
  | some t => t < a
  | none => false

/-- The delay `setTimeout` actually uses for
`setTimeout(fn, item.config.timeout)`: `undefined` is coerced to `0`. -/
def setTimeoutDelay (t : Option Nat) : Nat := t.getD 0

/-- Outcome of the loop body of `processPrefetchQueue` for one dequeued
item. -/
inductive PrefetchOutcome (T : Type)
  | droppedStale
  | completed (v : T)
  | failed
deriving DecidableEq

/-- The body of the `processPrefetchQueue` loop for one dequeued item:
if its queue-residence time exceeds `item.config.timeout!` it is dropped
without invoking `fetchFn`; otherwise `fetchFn()` is raced against a
rejection scheduled after `setTimeout(_, item.config.timeout)`, where the
fetch wins ties (its promise/timer is registered first).  A lost race or
a rejecting fetch lands in the `catch` branch (`failed`). -/
def processItem (now : Nat) {T : Type} (it : PrefetchQueueItem T) : PrefetchOutcome T :=
  if jsGtUndef (now - it.addedAt) it.config.timeout then .droppedStale
  else if it.fetchFn.settleAfter ≤ setTimeoutDelay it.config.timeout then
    match it.fetchFn.result with
    | .ok v => .completed v
    | .error _ => .failed
  else .failed

/-- The `while` loop of `processPrefetchQueue`: shifts items from the
front, processes each with `processItem` (writing a completed fetch to
the cache and recording the key), and never re-enqueues anything.
Returns the outcomes in processing order together with the final state. -/
def drainGo (now : Nat) {T : Type} :
    List (PrefetchQueueItem T) → PrefetchState T →
    List (String × PrefetchOutcome T) × PrefetchState T
  | [], st => ([], { st with queue := [] })
  | it :: rest, st =>
      let o := processItem now it
      let st' : PrefetchState T :=
        match o with
        | .completed v =>
            { st with
              cache := setCached prefetchCacheCfg now it.key v st.cache
              prefetchedKeys := it.key :: st.prefetchedKeys }
        | _ => st
      let next := drainGo now rest st'
      ((it.key, o) :: next.1, next.2)

/-- `processPrefetchQueue()`: drains the whole queue in order.  (Modelled
with a single `now`; the claims below about ordering and per-item
processing do not depend on time advancing between items.) -/
def processPrefetchQueue (now : Nat) {T : Type} (st : PrefetchState T) :
    List (String × PrefetchOutcome T) × PrefetchState T :=
  drainGo now st.queue st

/-- `prefetchNow(key, fetchFn)`: inside a `try`, returns a valid cached
value if present; otherwise awaits `fetchFn()` (result modelled as an
`Except E T`), writes a success through to the cache and resolves with
it; the `catch` block swallows any rejection and resolves with `null`
(`.ok none`).  The returned promise never rejects. -/
def prefetchNow (now : Nat) {T E : Type} (key : String) (fetch : Except E T)
    (st : PrefetchState T) : Except E (Option T) × PrefetchState T :=
  let c := getCached now key st.cache
  let st1 : PrefetchState T := { st with cache := c.2 }
  match c.1 with
  | some v => (.ok (some v), st1)
  | none =>
      match fetch with
      | .ok data =>
          (.ok (some data),
           { st1 with
             cache := setCached prefetchCacheCfg now key data st1.cache
             prefetchedKeys := key :: st1.prefetchedKeys })
      | .error _ => (.ok none, st1)

/-- `prefetchBatch(items)`: schedules every item with the config literal
`{ priority, background: true }`, whose `timeout` and `autoRefetch`
fields are absent.  (The trailing `processPrefetchQueue()` kick is again
a separate application.) -/
def prefetchBatch (now : Nat) {T : Type}
    (items : List (String × FetchBehavior T × Option Int))
    (st : PrefetchState T) : PrefetchState T :=
  items.foldl
    (fun s item =>
      schedulePrefetch now item.1 item.2.1
        { priority := item.2.2, background := some true } s)
    st

/-! ## `ReactiveStreamService.createAutoSaveStream`
(src/shared/reactive/epics.ts, lines 430-463)

The `status$` pipeline is
`save$ → tap → map(() => 'saving') → debounceTime → switchMap(data =>
saveFn(data).then(() => 'saved').catch(() => 'error')) → tap →
shareReplay(1)`.

The embedding tracks the value each operator passes downstream for one
published input.  Element types: after `map` every element is the string
literal `'saving'`; `debounceTime` only affects timing and forwards the
(latest) element unchanged; `switchMap` applies `saveFn` to the element
it receives. -/

/-- The status literals of the stream. -/
inductive SaveStatus
  | idle
  | saving
  | saved
  | error
deriving DecidableEq

/-- An element flowing through the `status$` pipeline: either a raw
published value of type `T` or one of the status string literals. -/
inductive StreamElem (T : Type)
  | data (v : T)
  | status (s : SaveStatus)
deriving DecidableEq

/-- `map(() => 'saving' as const)`: every element becomes the literal
`'saving'`, regardless of the published value. -/
def mapToSaving {T : Type} (_ : StreamElem T) : StreamElem T :=
  .status .saving

/-- `debounceTime(debounceMs)` passes the (latest) element through
unchanged; only its timing is affected. -/
def debouncePass {T : Type} (x : StreamElem T) : StreamElem T := x

/-- The argument `switchMap` hands to `saveFn` for a published value `v`:
the element after `map` and `debounceTime`. -/
def saveFnArgOf {T : Type} (v : T) : StreamElem T :=
  debouncePass (mapToSaving (.data v))

/-- `switchMap((data) => saveFn(data as any).then(() => 'saved').catch(() => 'error'))`
applied to one element. -/
def switchMapSave {T : Type} (saveFn : StreamElem T → Except Unit Unit)
    (x : StreamElem T) : SaveStatus :=
  match saveFn x with
  | .ok _ => .saved
  | .error _ => .error

/-- Everything `status$` emits for one published value `v` once the
debounce window has elapsed and the save settled: only the result of the
`switchMap` stage reaches subscribers (the mapped `'saving'` elements are
consumed by `switchMap`, never emitted). -/
def statusEmissions {T : Type} (saveFn : StreamElem T → Except Unit Unit)
    (v : T) : List SaveStatus :=
  [switchMapSave saveFn (saveFnArgOf v)]

/-! ## Helper lemmas -/

instance {E A : Type} [DecidableEq E] [DecidableEq A] : DecidableEq (Except E A) :=
  fun a b =>
    match a, b with
    | .ok x, .ok y =>
        if h : x = y then .isTrue (by rw [h]) else .isFalse (by intro hc; cases hc; exact h rfl)
    | .error x, .error y =>
        if h : x = y then .isTrue (by rw [h]) else .isFalse (by intro hc; cases hc; exact h rfl)
    | .ok _, .error _ => .isFalse (by intro hc; cases hc)
    | .error _, .ok _ => .isFalse (by intro hc; cases hc)

theorem updFn_same {A : Type} (m : String → A) (key : String) (v : A) :
    updFn m key v key = v := by
  simp [updFn]

theorem updFn_ne {A : Type} (m : String → A) (key k : String) (v : A) (h : k ≠ key) :
    updFn m key v k = m k := by
  simp [updFn, h]

/-- Unfolding `executeWithRetryStep` on a failure below the retry bound. -/
theorem executeWithRetryStep_error_lt (cfg : CacheConfig) (now : Nat) {T E : Type}
    (key : String) (e : E) (st : SmartCacheState T)
    (hlt : (st.retryCount key).getD 0 < cfg.maxRetries) :
    executeWithRetryStep cfg now (T := T) key (.error e) st =
      ⟨.reject e,
       { st with
         retryCount := updFn st.retryCount key (some ((st.retryCount key).getD 0 + 1))
         retryTimeouts := updFn st.retryTimeouts key true },
       some (cfg.retryDelay * ((st.retryCount key).getD 0 + 1))⟩ := by
  simp only [executeWithRetryStep, if_pos hlt]

/-- Unfolding `executeWithRetryStep` on a failure at or above the retry
bound. -/
theorem executeWithRetryStep_error_ge (cfg : CacheConfig) (now : Nat) {T E : Type}
    (key : String) (e : E) (st : SmartCacheState T)
    (hge : cfg.maxRetries ≤ (st.retryCount key).getD 0) :
    executeWithRetryStep cfg now (T := T) key (.error e) st =
      ⟨.reject e, { st with retryCount := updFn st.retryCount key none }, none⟩ := by
  simp only [executeWithRetryStep, if_neg (Nat.not_lt.mpr hge)]

/-- Behaviour of the failing retry chain: starting from a state whose
attempt counter for `key` reads `r`, the action is invoked exactly
`maxRetries - r + 1` times, the attempt counter ends up cleared, and the
cache is never written. -/
theorem runFailingChain_spec (cfg : CacheConfig) (now : Nat) {T E : Type}
    (key : String) (errs : Nat → E) :
    ∀ (fuel r i : Nat) (st : SmartCacheState T),
      (st.retryCount key).getD 0 = r →
      cfg.maxRetries - r + 1 ≤ fuel →
      (runFailingChain cfg now key errs fuel i st).1 = cfg.maxRetries - r + 1 ∧
      ((runFailingChain cfg now key errs fuel i st).2).retryCount key = none ∧
      ((runFailingChain cfg now key errs fuel i st).2).cache = st.cache := by
  intro fuel
  induction fuel with
  | zero => intro r i st _ hf; omega
  | succ fuel ih =>
      intro r i st hr hf
      by_cases hlt : r < cfg.maxRetries
      · have hstep := executeWithRetryStep_error_lt cfg now key (errs i) st (hr ▸ hlt)
        have hnext :=
          ih (r + 1) (i + 1)
            { st with
              retryCount := updFn st.retryCount key (some (r + 1))
              retryTimeouts := updFn (updFn st.retryTimeouts key true) key false }
            (by simp [updFn_same, hr]) (by omega)
        simp only [runFailingChain, hstep, hr] at *
        refine ⟨by omega, hnext.2.1, hnext.2.2⟩
      · have hstep :=
          executeWithRetryStep_error_ge cfg now key (errs i) st (hr ▸ Nat.not_lt.mp hlt)
        simp only [runFailingChain, hstep]
        exact ⟨by omega, updFn_same _ _ _, by simp⟩

/-! ## Claim C1 -/

/-- **C1** (counterexample): with the default configuration
(`maxRetries = 3`) and a fresh key whose attempt count `0` is below
`maxRetries`, one failing `executeWithRetry` invocation both schedules a
retry and settles the caller's promise by rejecting it immediately (the
`throw err` at the end of the catch block runs in every failure branch) —
refuting the claim that the promise remains pending and rejects only once
the attempt count reaches `maxRetries`. -/
theorem retry_below_max_still_rejects_counterexample :
    ((emptyCacheState Nat).retryCount "k").getD 0 < ({} : CacheConfig).maxRetries ∧
    (executeWithRetryStep {} 0 (E := String) "k" (.error "boom")
        (emptyCacheState Nat)).outcome = .reject "boom" ∧
    (executeWithRetryStep {} 0 (E := String) "k" (.error "boom")
        (emptyCacheState Nat)).scheduledRetry = some 1000 := by
  exact ⟨by decide, rfl, rfl⟩

/-- **C1** (amended): each `executeWithRetry` invocation settles its own
promise: success resolves with the value; a failure always rejects
immediately with that attempt's error, and additionally — while the
attempt count is below `maxRetries` — increments the count and schedules
a background retry after `retryDelay * (count + 1)`; once the count has
reached `maxRetries`, the retry state for the key is cleared and no
further retry is scheduled. -/
theorem executeWithRetry_settles_each_invocation (cfg : CacheConfig) (now : Nat)
    {T E : Type} (key : String) (e : E) (st : SmartCacheState T) :
    (∀ v : T, (executeWithRetryStep cfg now (E := E) key (.ok v) st).outcome = .resolve v) ∧
    (executeWithRetryStep cfg now (T := T) key (.error e) st).outcome = .reject e ∧
    ((st.retryCount key).getD 0 < cfg.maxRetries →
      (executeWithRetryStep cfg now (T := T) key (.error e) st).scheduledRetry =
        some (cfg.retryDelay * ((st.retryCount key).getD 0 + 1)) ∧
      (executeWithRetryStep cfg now (T := T) key (.error e) st).state.retryCount key =
        some ((st.retryCount key).getD 0 + 1)) ∧
    (cfg.maxRetries ≤ (st.retryCount key).getD 0 →
      (executeWithRetryStep cfg now (T := T) key (.error e) st).scheduledRetry = none ∧
      (executeWithRetryStep cfg now (T := T) key (.error e) st).state.retryCount key = none) := by
  refine ⟨fun v => rfl, ?_, ?_, ?_⟩
  · by_cases hlt : (st.retryCount key).getD 0 < cfg.maxRetries
    · rw [executeWithRetryStep_error_lt cfg now key e st hlt]
    · rw [executeWithRetryStep_error_ge cfg now key e st (Nat.not_lt.mp hlt)]
  · intro hlt
    rw [executeWithRetryStep_error_lt cfg now key e st hlt]
    exact ⟨rfl, updFn_same _ _ _⟩
  · intro hge
    rw [executeWithRetryStep_error_ge cfg now key e st hge]
    exact ⟨rfl, updFn_same _ _ _⟩

/-- Witness: the amended C1 theorem at concrete inputs, with the
below-`maxRetries` hypothesis discharged on a fresh state and the
at-`maxRetries` hypothesis discharged on a state whose counter reads 3. -/
theorem executeWithRetry_settles_each_invocation_witness :
    (executeWithRetryStep ({} : CacheConfig) 0 (T := Nat) "k" (.error "err")
        (emptyCacheState Nat)).scheduledRetry =
      some (({} : CacheConfig).retryDelay *
        (((emptyCacheState Nat).retryCount "k").getD 0 + 1)) ∧
    (executeWithRetryStep ({} : CacheConfig) 0 (T := Nat) "k" (.error "err")
        ⟨fun _ => none, fun k => if k = "k" then some 3 else none,
         fun _ => false⟩).state.retryCount "k" = none := by
  have h1 := executeWithRetry_settles_each_invocation ({} : CacheConfig) 0 (T := Nat)
    "k" "err" (emptyCacheState Nat)
  have h2 := executeWithRetry_settles_each_invocation ({} : CacheConfig) 0 (T := Nat)
    "k" "err" ⟨fun _ => none, fun k => if k = "k" then some 3 else none, fun _ => false⟩
  exact ⟨(h1.2.2.1 (by decide)).1, (h2.2.2.2 (by decide)).2⟩

/-! ## Claim C4 -/

/-- **C4**: with `maxRetries = 3`, for every key and an action that fails
on every attempt, the retry chain started on a fresh key invokes the
action exactly 4 times (1 initial + 3 retries) before retrying stops, and
the cache is never written (in particular the entry for the key stays
absent). -/
theorem retry_bound_four_attempts (cfg : CacheConfig) {T E : Type} (now : Nat)
    (key : String) (errs : Nat → E) (st : SmartCacheState T) (fuel : Nat)
    (hmax : cfg.maxRetries = 3) (hfresh : st.retryCount key = none)
    (hfuel : 4 ≤ fuel) :
    (runFailingChain cfg now (T := T) key errs fuel 0 st).1 = 4 ∧
    ((runFailingChain cfg now (T := T) key errs fuel 0 st).2).cache = st.cache ∧
    (st.cache key = none →
      ((runFailingChain cfg now (T := T) key errs fuel 0 st).2).cache key = none) := by
  have h := runFailingChain_spec cfg now key errs fuel 0 0 st (by simp [hfresh])
    (by omega)
  refine ⟨by rw [h.1, hmax], h.2.2, fun habs => ?_⟩
  rw [h.2.2, habs]

/-- Witness: the C4 theorem at the default configuration, a fresh state
and a concretely failing action. -/
theorem retry_bound_four_attempts_witness :
    (runFailingChain ({} : CacheConfig) 0 (T := Nat) "k" (fun _ => "e") 4 0
        (emptyCacheState Nat)).1 = 4 ∧
    ((runFailingChain ({} : CacheConfig) 0 (T := Nat) "k" (fun _ => "e") 4 0
        (emptyCacheState Nat)).2).cache "k" = none := by
  have h := retry_bound_four_attempts ({} : CacheConfig) 0 "k" (fun _ => "e")
    (emptyCacheState Nat) 4 rfl rfl (by decide)
  exact ⟨h.1, h.2.2 rfl⟩

/-! ## Claim C5 -/

/-- **C5**: recording a successful fetch through `setCached` (which is
also what the success path of `executeWithRetry` does) deletes the key's
attempt counter, so a subsequent always-failing sequence of
`executeWithRetry` calls for the same key is granted the full retry
budget again: exactly `maxRetries + 1` attempts. -/
theorem setCached_resets_retry_budget (cfg : CacheConfig) {T E : Type}
    (now now2 : Nat) (key : String) (data : T) (st : SmartCacheState T)
    (errs : Nat → E) (fuel : Nat) (hfuel : cfg.maxRetries + 1 ≤ fuel) :
    (setCached cfg now key data st).retryCount key = none ∧
    (executeWithRetryStep cfg now (E := E) key (.ok data) st).state.retryCount key = none ∧
    (runFailingChain cfg now2 (T := T) key errs fuel 0
        (setCached cfg now key data st)).1 = cfg.maxRetries + 1 := by
  have hreset : (setCached cfg now key data st).retryCount key = none :=
    updFn_same _ _ _
  have h := runFailingChain_spec cfg now2 key errs fuel 0 0
    (setCached cfg now key data st) (by simp [hreset]) (by omega)
  refine ⟨hreset, updFn_same _ _ _, ?_⟩
  rw [h.1]
  omega

/-- Witness: the C5 theorem at the default configuration and concrete
inputs. -/
theorem setCached_resets_retry_budget_witness :
    (setCached ({} : CacheConfig) 0 "k" (5 : Nat) (emptyCacheState Nat)).retryCount "k" =
      none ∧
    (runFailingChain ({} : CacheConfig) 7 (T := Nat) "k" (fun _ => "e") 4 0
        (setCached ({} : CacheConfig) 0 "k" (5 : Nat) (emptyCacheState Nat))).1 =
      ({} : CacheConfig).maxRetries + 1 := by
  have h := setCached_resets_retry_budget ({} : CacheConfig) 0 7 "k" (5 : Nat)
    (emptyCacheState Nat) (fun _ => "e") 4 (by decide)
  exact ⟨h.1, h.2.2⟩

/-! ## Claim C9 -/

/-- **C9**: `setCached` records `expiresAt = now + ttl`; `getCached`
returns the stored value exactly when an entry is present and
`now ≤ expiresAt`; otherwise it returns `none`, evicting an expired entry
as a side effect.  In particular an immediate get after a set returns the
value and a get after the TTL has elapsed returns `none`. -/
theorem ttl_cache_set_get (cfg : CacheConfig) {T : Type} (now now2 : Nat)
    (key : String) (data : T) (st : SmartCacheState T) :
    (setCached cfg now key data st).cache key = some ⟨data, now, now + cfg.ttl⟩ ∧
    getCached now key (setCached cfg now key data st) =
      (some data, setCached cfg now key data st) ∧
    (now + cfg.ttl < now2 →
      (getCached now2 key (setCached cfg now key data st)).1 = none) ∧
    (∀ entry : CacheEntry T, st.cache key = some entry →
      (now2 ≤ entry.expiresAt → getCached now2 key st = (some entry.data, st)) ∧
      (entry.expiresAt < now2 →
        getCached now2 key st = (none, { st with cache := updFn st.cache key none }))) ∧
    (st.cache key = none → getCached now2 key st = (none, st)) := by
  have hset : (setCached cfg now key data st).cache key =
      some ⟨data, now, now + cfg.ttl⟩ := updFn_same _ _ _
  refine ⟨hset, ?_, ?_, ?_, ?_⟩
  · simp only [getCached, hset, isExpired]
    rw [if_neg (by simp)]
  · intro hnow
    simp only [getCached, hset, isExpired]
    rw [if_pos (by simp [hnow])]
  · intro entry hentry
    constructor
    · intro hle
      simp only [getCached, hentry, isExpired]
      rw [if_neg (by simp; omega)]
    · intro hgt
      simp only [getCached, hentry, isExpired]
      rw [if_pos (by simp [hgt])]
  · intro hnone
    simp only [getCached, hnone]

/-- Witness: the C9 theorem at concrete inputs, discharging the
after-TTL hypothesis, the present-entry hypotheses (valid and expired)
and the absent-entry hypothesis. -/
theorem ttl_cache_set_get_witness :
    getCached 0 "k" (setCached ({} : CacheConfig) 0 "k" (5 : Nat) (emptyCacheState Nat)) =
      (some 5, setCached ({} : CacheConfig) 0 "k" (5 : Nat) (emptyCacheState Nat)) ∧
    (getCached 300001 "k"
        (setCached ({} : CacheConfig) 0 "k" (5 : Nat) (emptyCacheState Nat))).1 = none ∧
    getCached 9 "k" (⟨fun k => if k = "k" then some ⟨7, 0, 10⟩ else none,
        fun _ => none, fun _ => false⟩ : SmartCacheState Nat) =
      (some 7, ⟨fun k => if k = "k" then some ⟨7, 0, 10⟩ else none,
        fun _ => none, fun _ => false⟩) ∧
    getCached 3 "k" (emptyCacheState Nat) = (none, emptyCacheState Nat) := by
  have h1 := ttl_cache_set_get ({} : CacheConfig) 0 300001 "k" (5 : Nat)
    (emptyCacheState Nat)
  have h2 := ttl_cache_set_get ({} : CacheConfig) 0 9 "k" (7 : Nat)
    (⟨fun k => if k = "k" then some ⟨7, 0, 10⟩ else none,
      fun _ => none, fun _ => false⟩ : SmartCacheState Nat)
  have h3 := ttl_cache_set_get ({} : CacheConfig) 0 3 "k" (7 : Nat)
    (emptyCacheState Nat)
  exact ⟨h1.2.1, h1.2.2.1 (by decide),
    (h2.2.2.2.1 ⟨7, 0, 10⟩ (by decide)).1 (by decide), h3.2.2.2.2 rfl⟩

/-! ## Queue helper lemmas -/

theorem sortQueue_perm {T : Type} (q : List (PrefetchQueueItem T)) :
    List.Perm (sortQueue q) q :=
  List.perm_insertionSort queueRel q

theorem sortQueue_sorted {T : Type} (q : List (PrefetchQueueItem T)) :
    List.Sorted queueRel (sortQueue q) :=
  List.sorted_insertionSort queueRel q

theorem setPriorityAtFirst_map_key {T : Type} (key : String) (p : Int) :
    ∀ q : List (PrefetchQueueItem T),
      (setPriorityAtFirst key p q).map (fun it => it.key) = q.map (fun it => it.key)
  | [] => rfl
  | it :: rest => by
      by_cases h : it.key = key
      · simp [setPriorityAtFirst, h]
      · simp [setPriorityAtFirst, h, setPriorityAtFirst_map_key key p rest]

/-- Setting the priority of the first item with a key to the priority it
already has is the identity. -/
theorem setPriorityAtFirst_self {T : Type} (key : String) :
    ∀ (q : List (PrefetchQueueItem T)) (ex : PrefetchQueueItem T),
      q.find? (fun it => it.key == key) = some ex →
      setPriorityAtFirst key ex.priority q = q
  | [], ex => by intro h; simp at h
  | it :: rest, ex => by
      intro h
      by_cases hk : it.key = key
      · rw [List.find?_cons_of_pos _ (by simp [hk])] at h
        cases h
        simp only [setPriorityAtFirst, if_pos hk]
      · rw [List.find?_cons_of_neg _ (by simp [hk])] at h
        simp [setPriorityAtFirst, hk, setPriorityAtFirst_self key rest ex h]

/-- Every item of `setPriorityAtFirst key p q` is an item of `q`, possibly
with its priority replaced by `p`; in particular its key and config come
from an item of `q`. -/
theorem setPriorityAtFirst_mem {T : Type} (key : String) (p : Int) :
    ∀ (q : List (PrefetchQueueItem T)) (it : PrefetchQueueItem T),
      it ∈ setPriorityAtFirst key p q →
      ∃ it0 ∈ q, it.key = it0.key ∧ it.config = it0.config
  | [], it => by intro h; simp [setPriorityAtFirst] at h
  | b :: rest, it => by
      intro h
      by_cases hk : b.key = key
      · simp only [setPriorityAtFirst, if_pos hk, List.mem_cons] at h
        rcases h with h | h
        · exact ⟨b, List.mem_cons_self b rest, by simp [h]⟩
        · exact ⟨it, List.mem_cons_of_mem b h, rfl, rfl⟩
      · simp only [setPriorityAtFirst, if_neg hk, List.mem_cons] at h
        rcases h with h | h
        · exact ⟨b, List.mem_cons_self b rest, by simp [h]⟩
        · obtain ⟨it0, hmem, hkey, hcfg⟩ := setPriorityAtFirst_mem key p rest it h
          exact ⟨it0, List.mem_cons_of_mem b hmem, hkey, hcfg⟩

/-- `drainGo` dequeues and processes the items exactly in queue order. -/
theorem drainGo_keys (now : Nat) {T : Type} :
    ∀ (q : List (PrefetchQueueItem T)) (st : PrefetchState T),
      (drainGo now q st).1.map Prod.fst = q.map (fun it => it.key)
  | [], st => rfl
  | it :: rest, st => by
      simp only [drainGo, List.map_cons]
      exact congrArg _ (drainGo_keys now rest _)

/-- The queue after `schedulePrefetch` has one of three shapes: untouched
(cache hit or no priority raise), re-sorted with the first matching
item's priority raised, or re-sorted with a new item appended. -/
theorem schedulePrefetch_queue_cases (now : Nat) {T : Type} (key : String)
    (fetch : FetchBehavior T) (config : PrefetchConfig) (st : PrefetchState T) :
    (schedulePrefetch now key fetch config st).queue = st.queue ∨
    (schedulePrefetch now key fetch config st).queue =
      sortQueue (setPriorityAtFirst key (config.priority.getD 0) st.queue) ∨
    (st.queue.find? (fun b => b.key == key) = none ∧
      (schedulePrefetch now key fetch config st).queue =
        sortQueue (st.queue ++ [⟨key, fetch, config.priority.getD 0, config, now⟩])) := by
  simp only [schedulePrefetch]
  by_cases hc :
      ((getCached now key st.cache).1.isSome && !config.autoRefetch.getD false) = true
  · rw [if_pos hc]
    exact Or.inl rfl
  · rw [if_neg hc]
    cases hfind : st.queue.find? (fun b => b.key == key) with
    | some ex =>
        simp only [hfind]
        by_cases hp : ex.priority < config.priority.getD 0
        · rw [if_pos hp]
          exact Or.inr (Or.inl rfl)
        · rw [if_neg hp]
          exact Or.inl rfl
    | none =>
        simp only [hfind]
        exact Or.inr (Or.inr ⟨trivial, trivial⟩)

/-! ## Claim C6 -/

/-- **C6**: the prefetch queue never holds two entries with the same key:
`schedulePrefetch` preserves key-uniqueness; when the key is already
queued (and not short-circuited by a cache hit) it only permutes the
queue with the first matching entry's priority replaced by the maximum of
the existing and the new priority; and concretely, scheduling the same
key with priorities 2 then 7 leaves exactly one entry, with priority 7. -/
theorem prefetch_queue_dedup (now : Nat) {T : Type} (key : String)
    (fetch f : FetchBehavior T) (config : PrefetchConfig) (st : PrefetchState T) :
    ((st.queue.map (fun b => b.key)).Nodup →
      ((schedulePrefetch now key fetch config st).queue.map (fun b => b.key)).Nodup) ∧
    (∀ ex : PrefetchQueueItem T, (getCached now key st.cache).1 = none →
      st.queue.find? (fun b => b.key == key) = some ex →
      List.Perm (schedulePrefetch now key fetch config st).queue
        (setPriorityAtFirst key (max ex.priority (config.priority.getD 0)) st.queue)) ∧
    ((schedulePrefetch now "k" f ⟨some 7, none, none, none⟩
        (schedulePrefetch now "k" f ⟨some 2, none, none, none⟩
          (emptyPrefetchState T))).queue.map (fun b => (b.key, b.priority)) =
      [("k", 7)]) := by
  refine ⟨?_, ?_, ?_⟩
  · intro hnodup
    rcases schedulePrefetch_queue_cases now key fetch config st with h | h | ⟨hfind, h⟩
    · rwa [h]
    · rw [h]
      have hperm := (sortQueue_perm
        (setPriorityAtFirst key (config.priority.getD 0) st.queue)).map
        (fun b => b.key)
      rw [hperm.nodup_iff, setPriorityAtFirst_map_key]
      exact hnodup
    · rw [h]
      have hperm := (sortQueue_perm
        (st.queue ++ [⟨key, fetch, config.priority.getD 0, config, now⟩])).map
        (fun b => b.key)
      rw [hperm.nodup_iff]
      simp only [List.map_append, List.map_cons, List.map_nil]
      have hkey : key ∉ st.queue.map (fun b => b.key) := by
        intro hmem
        obtain ⟨b, hb, hbk⟩ := List.mem_map.mp hmem
        have := List.find?_eq_none.mp hfind b hb
        simp [hbk] at this
      rw [(List.perm_append_singleton _ _).nodup_iff]
      exact List.nodup_cons.mpr ⟨hkey, hnodup⟩
  · intro ex hmiss hfind
    simp only [schedulePrefetch, hmiss, Option.isSome_none, Bool.false_and,
      Bool.false_eq_true, if_false, hfind]
    by_cases hp : ex.priority < config.priority.getD 0
    · rw [if_pos hp, max_eq_right (le_of_lt hp)]
      exact sortQueue_perm _
    · rw [if_neg hp, max_eq_left (not_lt.mp hp),
        setPriorityAtFirst_self key st.queue ex hfind]
  · rfl

/-- Witness: C6 at concrete inputs — key-uniqueness from the empty state,
and the priority-update permutation on a queue already holding the key
with priority 2 while a priority-7 schedule arrives. -/
theorem prefetch_queue_dedup_witness :
    (((schedulePrefetch 0 "k" ⟨0, Except.ok 0⟩ ⟨some 2, none, none, none⟩
        (emptyPrefetchState Nat)).queue.map (fun b => b.key)).Nodup) ∧
    List.Perm (schedulePrefetch 0 "k" ⟨0, Except.ok 0⟩ ⟨some 7, none, none, none⟩
        ⟨[⟨"k", ⟨0, Except.ok 0⟩, 2, ⟨some 2, none, none, none⟩, 0⟩],
         emptyCacheState Nat, []⟩).queue
      (setPriorityAtFirst "k"
        (max (2 : Int) ((⟨some 7, none, none, none⟩ : PrefetchConfig).priority.getD 0))
        [⟨"k", ⟨0, Except.ok 0⟩, 2, ⟨some 2, none, none, none⟩, 0⟩]) := by
  have h1 := prefetch_queue_dedup 0 (T := Nat) "k" ⟨0, Except.ok 0⟩ ⟨0, Except.ok 0⟩
    ⟨some 2, none, none, none⟩ (emptyPrefetchState Nat)
  have h2 := prefetch_queue_dedup 0 (T := Nat) "k" ⟨0, Except.ok 0⟩ ⟨0, Except.ok 0⟩
    ⟨some 7, none, none, none⟩
    ⟨[⟨"k", ⟨0, Except.ok 0⟩, 2, ⟨some 2, none, none, none⟩, 0⟩],
     emptyCacheState Nat, []⟩
  exact ⟨h1.1 (by decide), h2.2.1 ⟨"k", ⟨0, Except.ok 0⟩, 2, ⟨some 2, none, none, none⟩, 0⟩
    rfl rfl⟩

/-! ## Claim C7 -/

/-- **C7**: draining processes items exactly in queue order, and
`schedulePrefetch` keeps the queue sorted in descending priority (with
the stable sort preserving FIFO order among equal priorities).
Concretely, enqueuing priorities 1, 5, 3 and draining processes them in
the order 5, 3, 1, and two items of equal priority are processed in
insertion order. -/
theorem prefetch_priority_order (now : Nat) {T : Type} (key : String)
    (fetch f : FetchBehavior T) (config : PrefetchConfig) (st : PrefetchState T) :
    (∀ (q : List (PrefetchQueueItem T)) (s : PrefetchState T),
      (drainGo now q s).1.map Prod.fst = q.map (fun b => b.key)) ∧
    (List.Sorted queueRel st.queue →
      List.Sorted queueRel (schedulePrefetch now key fetch config st).queue) ∧
    ((processPrefetchQueue now
        (schedulePrefetch now "c" f ⟨some 3, none, none, none⟩
          (schedulePrefetch now "b" f ⟨some 5, none, none, none⟩
            (schedulePrefetch now "a" f ⟨some 1, none, none, none⟩
              (emptyPrefetchState T))))).1.map Prod.fst = ["b", "c", "a"]) ∧
    ((processPrefetchQueue now
        (schedulePrefetch now "b" f ⟨some 5, none, none, none⟩
          (schedulePrefetch now "a" f ⟨some 5, none, none, none⟩
            (emptyPrefetchState T)))).1.map Prod.fst = ["a", "b"]) := by
  refine ⟨fun q s => drainGo_keys now q s, ?_, ?_, ?_⟩
  · intro hsorted
    rcases schedulePrefetch_queue_cases now key fetch config st with h | h | ⟨_, h⟩ <;>
      rw [h]
    · exact hsorted
    · exact sortQueue_sorted _
    · exact sortQueue_sorted _
  · simp only [processPrefetchQueue, drainGo_keys]
    rfl
  · simp only [processPrefetchQueue, drainGo_keys]
    rfl

/-- Witness: C7's sortedness preservation applied to the empty (hence
sorted) queue. -/
theorem prefetch_priority_order_witness :
    List.Sorted queueRel
      (schedulePrefetch 0 "k" (⟨0, Except.ok 0⟩ : FetchBehavior Nat)
        ⟨some 2, none, none, none⟩ (emptyPrefetchState Nat)).queue := by
  have h := prefetch_priority_order 0 (T := Nat) "k" ⟨0, Except.ok 0⟩ ⟨0, Except.ok 0⟩
    ⟨some 2, none, none, none⟩ (emptyPrefetchState Nat)
  exact h.2.1 (by simp [emptyPrefetchState])

/-! ## Claim C8 -/

/-- **C8**: for a queue item with an explicitly configured timeout `t`:
if its queue-residence time at dequeue exceeds `t`, it is dropped without
its `fetchFn` being consulted (the outcome is `droppedStale` for every
fetch behaviour) and without touching the cache or being re-enqueued;
otherwise the fetch is raced against a `t`-millisecond rejection timer,
and a fetch settling after `t` is treated as a failure — dropped, not
re-enqueued, cache untouched. -/
theorem prefetch_item_timeout (now : Nat) {T : Type} (it : PrefetchQueueItem T)
    (t : Nat) (ht : it.config.timeout = some t) :
    (t < now - it.addedAt →
      (∀ g : FetchBehavior T, processItem now { it with fetchFn := g } = .droppedStale) ∧
      ∀ st : PrefetchState T,
        drainGo now [it] st = ([(it.key, .droppedStale)], { st with queue := [] })) ∧
    (now - it.addedAt ≤ t → t < it.fetchFn.settleAfter →
      processItem now it = .failed ∧
      ∀ st : PrefetchState T,
        drainGo now [it] st = ([(it.key, .failed)], { st with queue := [] })) ∧
    (now - it.addedAt ≤ t → it.fetchFn.settleAfter ≤ t →
      processItem now it =
        match it.fetchFn.result with
        | .ok v => .completed v
        | .error _ => .failed) := by
  refine ⟨?_, ?_, ?_⟩
  · intro hstale
    have hdrop : ∀ g : FetchBehavior T,
        processItem now { it with fetchFn := g } = .droppedStale := by
      intro g
      simp only [processItem, jsGtUndef, ht]
      rw [if_pos (by simp [hstale])]
    refine ⟨hdrop, fun st => ?_⟩
    simp only [drainGo, hdrop it.fetchFn]
  · intro hres hslow
    have hfail : processItem now it = .failed := by
      simp only [processItem, jsGtUndef, setTimeoutDelay, ht]
      rw [if_neg (by simp; omega), if_neg (by simp [Option.getD]; omega)]
    refine ⟨hfail, fun st => ?_⟩
    simp only [drainGo, hfail]
  · intro hres hfast
    simp only [processItem, jsGtUndef, setTimeoutDelay, ht]
    rw [if_neg (by simp; omega), if_pos (by simp [Option.getD]; omega)]

/-- Witness: C8 at concrete items — one with `timeout = 100` that sat in
the queue for 150 ms (dropped stale), one whose fetch settles after the
timer (failed), one whose fetch settles in time (completed). -/
theorem prefetch_item_timeout_witness :
    processItem 150
      (⟨"k", ⟨0, Except.ok 5⟩, 0, ⟨none, none, some 100, none⟩, 0⟩ :
        PrefetchQueueItem Nat) = .droppedStale ∧
    processItem 50
      (⟨"k", ⟨200, Except.ok 5⟩, 0, ⟨none, none, some 100, none⟩, 0⟩ :
        PrefetchQueueItem Nat) = .failed ∧
    processItem 50
      (⟨"k", ⟨80, Except.ok 5⟩, 0, ⟨none, none, some 100, none⟩, 0⟩ :
        PrefetchQueueItem Nat) = .completed 5 := by
  have h1 := prefetch_item_timeout 150
    (⟨"k", ⟨0, Except.ok 5⟩, 0, ⟨none, none, some 100, none⟩, 0⟩ :
      PrefetchQueueItem Nat) 100 rfl
  have h2 := prefetch_item_timeout 50
    (⟨"k", ⟨200, Except.ok 5⟩, 0, ⟨none, none, some 100, none⟩, 0⟩ :
      PrefetchQueueItem Nat) 100 rfl
  have h3 := prefetch_item_timeout 50
    (⟨"k", ⟨80, Except.ok 5⟩, 0, ⟨none, none, some 100, none⟩, 0⟩ :
      PrefetchQueueItem Nat) 100 rfl
  exact ⟨(h1.1 (by decide)).1 ⟨0, Except.ok 5⟩,
    (h2.2.1 (by decide) (by decide)).1,
    h3.2.2 (by decide) (by decide)⟩

/-! ## Claim C10 -/

/-- `schedulePrefetch` called with a raw config whose `timeout` field is
absent preserves the invariant that every queued item's stored config has
an absent `timeout`. -/
theorem schedulePrefetch_timeout_invariant (now : Nat) {T : Type} (key : String)
    (fetch : FetchBehavior T) (config : PrefetchConfig) (st : PrefetchState T)
    (hcfg : config.timeout = none)
    (hq : ∀ b ∈ st.queue, b.config.timeout = none) :
    ∀ b ∈ (schedulePrefetch now key fetch config st).queue,
      b.config.timeout = none := by
  rcases schedulePrefetch_queue_cases now key fetch config st with h | h | ⟨_, h⟩ <;>
    rw [h] <;> intro b hb
  · exact hq b hb
  · have hb2 := (sortQueue_perm _).mem_iff.mp hb
    obtain ⟨b0, hb0, _, hc⟩ := setPriorityAtFirst_mem _ _ _ _ hb2
    rw [hc]
    exact hq b0 hb0
  · have hb2 := (sortQueue_perm _).mem_iff.mp hb
    rcases List.mem_append.mp hb2 with hb3 | hb3
    · exact hq b hb3
    · rw [List.mem_singleton.mp hb3]
      exact hcfg

/-- **C10**: items scheduled with a config lacking an explicit `timeout`
(as all `prefetchBatch` submissions are) are stored with the caller's raw
config, in which `timeout` is absent — not the destructured 5000 ms
default.  Consequently the dequeue-time staleness check
(`timeInQueue > undefined`) is never true, so such items are never
dropped as stale, and the race's rejection timer is created with an
`undefined` delay (coerced to an immediate 0 ms timer), so the item fails
as a timeout unless its fetch settles before that immediately-scheduled
timer fires. -/
theorem prefetch_missing_timeout (now : Nat) {T : Type} (key : String)
    (fetch : FetchBehavior T) (config : PrefetchConfig) (st : PrefetchState T)
    (items : List (String × FetchBehavior T × Option Int))
    (it : PrefetchQueueItem T) :
    (config.timeout = none →
      (∀ b ∈ st.queue, b.config.timeout = none) →
      ∀ b ∈ (schedulePrefetch now key fetch config st).queue,
        b.config.timeout = none) ∧
    ((∀ b ∈ st.queue, b.config.timeout = none) →
      ∀ b ∈ (prefetchBatch now items st).queue, b.config.timeout = none) ∧
    (it.config.timeout = none →
      (∀ m : Nat, processItem m it ≠ .droppedStale) ∧
      (0 < it.fetchFn.settleAfter → processItem now it = .failed) ∧
      (it.fetchFn.settleAfter = 0 →
        processItem now it =
          match it.fetchFn.result with
          | .ok v => .completed v
          | .error _ => .failed)) := by
  refine ⟨schedulePrefetch_timeout_invariant now key fetch config st, ?_, ?_⟩
  · suffices hgen : ∀ (js : List (String × FetchBehavior T × Option Int))
        (s : PrefetchState T), (∀ b ∈ s.queue, b.config.timeout = none) →
        ∀ b ∈ (prefetchBatch now js s).queue, b.config.timeout = none by
      exact hgen items st
    intro js
    induction js with
    | nil => intro s hs; exact hs
    | cons j rest ih =>
        intro s hs
        exact ih _ (schedulePrefetch_timeout_invariant now j.1 j.2.1 _ s rfl hs)
  · intro hnone
    refine ⟨?_, ?_, ?_⟩
    · intro m hc
      simp only [processItem, jsGtUndef, hnone] at hc
      rw [if_neg (by simp)] at hc
      split at hc
      · split at hc <;> exact PrefetchOutcome.noConfusion hc
      · exact PrefetchOutcome.noConfusion hc
    · intro hpos
      simp only [processItem, jsGtUndef, setTimeoutDelay, hnone]
      rw [if_neg (by simp), if_neg (by simp [Option.getD]; omega)]
    · intro hzero
      simp only [processItem, jsGtUndef, setTimeoutDelay, hnone]
      rw [if_neg (by simp), if_pos (by simp [Option.getD, hzero])]

/-- Witness: C10 at concrete inputs — a batch submission stores a config
with an absent timeout, and an item with an absent timeout fails whenever
its fetch does not settle immediately. -/
theorem prefetch_missing_timeout_witness :
    (∀ b ∈ (prefetchBatch 0 [("k", (⟨3, Except.ok 5⟩ : FetchBehavior Nat), some 2)]
        (emptyPrefetchState Nat)).queue, b.config.timeout = none) ∧
    processItem 0
      (⟨"k", ⟨3, Except.ok 5⟩, 2, ⟨some 2, some true, none, none⟩, 0⟩ :
        PrefetchQueueItem Nat) = .failed ∧
    processItem 0
      (⟨"k", ⟨0, Except.ok 5⟩, 2, ⟨some 2, some true, none, none⟩, 0⟩ :
        PrefetchQueueItem Nat) = .completed 5 := by
  have h1 := prefetch_missing_timeout 0 (T := Nat) "k" ⟨3, Except.ok 5⟩
    ⟨some 2, some true, none, none⟩ (emptyPrefetchState Nat)
    [("k", (⟨3, Except.ok 5⟩ : FetchBehavior Nat), some 2)]
    ⟨"k", ⟨3, Except.ok 5⟩, 2, ⟨some 2, some true, none, none⟩, 0⟩
  have h2 := prefetch_missing_timeout 0 (T := Nat) "k" ⟨0, Except.ok 5⟩
    ⟨some 2, some true, none, none⟩ (emptyPrefetchState Nat)
    [("k", (⟨0, Except.ok 5⟩ : FetchBehavior Nat), some 2)]
    ⟨"k", ⟨0, Except.ok 5⟩, 2, ⟨some 2, some true, none, none⟩, 0⟩
  exact ⟨h1.2.1 (by simp [emptyPrefetchState]),
    (h1.2.2 rfl).2.1 (by decide), (h2.2.2 rfl).2.2 rfl⟩

/-! ## Claim C2 -/

/-- **C2** (code evaluated at the failing input): publishing `42` to
`save$` hands `saveFn` the mapped literal `'saving'` — not the published
data, hence the `data as any` cast in the source — so a save function
that would succeed on the real payload rejects; and `status$` never emits
`'saving'` (every mapped `'saving'` element is consumed by `switchMap`),
its only emission being the post-save `'saved'`/`'error'`. -/
theorem autoSave_saveFn_receives_saving_literal :
    saveFnArgOf (T := Nat) 42 = StreamElem.status SaveStatus.saving ∧
    saveFnArgOf (T := Nat) 42 ≠ StreamElem.data 42 ∧
    statusEmissions (T := Nat)
      (fun x => if x = StreamElem.data 42 then Except.ok () else Except.error ()) 42 =
      [SaveStatus.error] ∧
    SaveStatus.saving ∉ statusEmissions (T := Nat)
      (fun x => if x = StreamElem.data 42 then Except.ok () else Except.error ()) 42 := by
  exact ⟨rfl, by decide, by decide, by decide⟩

/-! ## Claim C3 -/

/-- **C3** (counterexample): with an empty cache and a fetch that
rejects, `prefetchNow` resolves with `null` (`.ok none`) — the `catch`
block swallows the error and returns `null` — rather than rejecting, so
its failure reporting is not a rejected promise as claimed. -/
theorem prefetchNow_failure_resolves_null_counterexample :
    (prefetchNow 0 "k" (Except.error "boom") (emptyPrefetchState Nat)).1 =
      Except.ok (none : Option Nat) ∧
    (prefetchNow 0 "k" (Except.error "boom") (emptyPrefetchState Nat)).1 ≠
      Except.error "boom" := by
  exact ⟨rfl, by decide⟩

/-- **C3** (amended): `prefetchNow` never throws synchronously and its
promise never rejects: it always resolves with some `Option` value, and
when the key is not validly cached and the awaited `fetchFn` rejects, it
reports the failure by resolving with `null` (`.ok none`). -/
theorem prefetchNow_never_rejects (now : Nat) {T E : Type} (key : String)
    (fetch : Except E T) (st : PrefetchState T) :
    (∃ v : Option T, (prefetchNow now key fetch st).1 = Except.ok v) ∧
    ((getCached now key st.cache).1 = none → ∀ e : E, fetch = .error e →
      (prefetchNow now key fetch st).1 = Except.ok none) := by
  constructor
  · simp only [prefetchNow]
    cases hcached : (getCached now key st.cache).1 with
    | some v => exact ⟨some v, rfl⟩
    | none =>
        cases fetch with
        | ok data => exact ⟨some data, rfl⟩
        | error e => exact ⟨none, rfl⟩
  · intro hmiss e hfe
    simp only [prefetchNow, hmiss, hfe]

/-- Witness: the amended C3 theorem at a concrete rejected fetch on an
empty cache. -/
theorem prefetchNow_never_rejects_witness :
    (prefetchNow 3 "k" (Except.error "down") (emptyPrefetchState Nat)).1 =
      Except.ok none := by
  exact (prefetchNow_never_rejects 3 "k" (Except.error "down")
    (emptyPrefetchState Nat)).2 rfl "down" rfl

end ByteBank
